import Mathlib

/-!
Verification of the Outreach-Reliability-Kit email-deliverability prober.

The development shallowly embeds the two-stage prober: the MX resolver
(`DomainMXChecker` of `ork/email_check/domain_mx.py` and its simpler variant in
`pot/email_check/domain_mx.py`), the SMTP handshake prober
(`SMTPHandshakeChecker` of `ork/email_check/smtp_handshake.py` and
`pot/email_check/smtp_handshake.py`), and the orchestrator
(`check_emails` of `pot/cli.py`).

Network behaviour (DNS answers, SMTP conversations) is external
nondeterminism; it is modelled by oracle functions passed to the embedded
operations.  Wall-clock times and delays are modelled as exact rationals.
Every operation additionally returns a trace of the network events it
performed, so that claims about "no network I/O" and "fresh DNS query" are
expressible.
-/

/-! ### Data model (`pot/email_check/models.py`) -/

/-- `DomainStatus = Literal["valid", "domain_missing", "mx_missing"]`. -/
inductive DomainStatus where
  | valid
  | domain_missing
  | mx_missing
deriving DecidableEq, Repr

/-- `SMTPStatus = Literal["deliverable", "undeliverable", "unknown", "tempfail"]`. -/
inductive SMTPStatus where
  | deliverable
  | undeliverable
  | unknown
  | tempfail
deriving DecidableEq, Repr

/-- `MXLookupResult` dataclass. -/
structure MXLookupResult where
  domain : String
  status : DomainStatus
  mx_hosts : List String := []
  detail : String := ""
deriving DecidableEq, Repr

/-- `SMTPCheckResult` dataclass. -/
structure SMTPCheckResult where
  status : SMTPStatus
  detail : String
  code : Option Int := none
deriving DecidableEq, Repr

/-- `EmailCheckResult` dataclass. -/
structure EmailCheckResult where
  email : String
  domain : String
  domain_status : DomainStatus
  mx_hosts : List String
  smtp_status : SMTPStatus
  smtp_detail : String
deriving DecidableEq, Repr

/-! ### SMTP RCPT reply-code interpretation

`SMTPHandshakeChecker._interpret_rcpt_response` is textually identical in
`ork/email_check/smtp_handshake.py` and `pot/email_check/smtp_handshake.py`,
so it is embedded once.  The server message is modelled after `_decode`,
i.e. as the already-decoded string. -/

/-- `_interpret_rcpt_response(code, message)`: `detail` is
`f"{code} {self._decode(message)}".strip()` and each branch stores the
received code in the result. -/
def interpret_rcpt_response (code : Int) (message : String) : SMTPCheckResult :=
  let detail := (s!"{code} {message}").trim
  if code = 250 ∨ code = 251 then
    ⟨.deliverable, detail, some code⟩
  else if code = 550 ∨ code = 551 ∨ code = 552 ∨ code = 553 ∨ code = 554 then
    ⟨.undeliverable, detail, some code⟩
  else if code = 450 ∨ code = 451 ∨ code = 452 ∨ code = 421 then
    ⟨.tempfail, detail, some code⟩
  else if code = 530 ∨ code = 535 ∨ code ≥ 500 then
    ⟨.unknown, "policy/block: " ++ detail, some code⟩
  else
    ⟨.unknown, detail, some code⟩

/-- Spec-side restatement of the RCPT classification table, written from the
words of the specification: 250/251 deliverable; 550-554 undeliverable;
450/451/452/421 tempfail; 530, 535 and any other code ≥ 500 not listed above
unknown with a "policy/block:" prefixed detail; anything else unknown with
the raw code and message passed through; the `code` field always carries the
received reply code. -/
def rcptSpecResult (code : Int) (message : String) : SMTPCheckResult :=
  let raw := (s!"{code} {message}").trim
  { status :=
      if code = 250 ∨ code = 251 then .deliverable
      else if 550 ≤ code ∧ code ≤ 554 then .undeliverable
      else if code = 450 ∨ code = 451 ∨ code = 452 ∨ code = 421 then .tempfail
      else .unknown
    detail :=
      if code = 530 ∨ code = 535 ∨ (500 ≤ code ∧ ¬ (550 ≤ code ∧ code ≤ 554)) then
        "policy/block: " ++ raw
      else raw
    code := some code }

/-- The embedded interpreter always records the received reply code. -/
theorem interpret_rcpt_response_code (code : Int) (message : String) :
    (interpret_rcpt_response code message).code = some code := by
  unfold interpret_rcpt_response
  split_ifs <;> rfl

/-- **C1.** `_interpret_rcpt_response` realises the specification's RCPT
reply-code classification table exactly: 250/251 deliverable; 550-554
undeliverable; 450/451/452/421 tempfail; 530/535/other ≥ 500 unknown with a
"policy/block:" prefix; anything else unknown with the raw code and decoded
message passed through; and the result's code field always equals the
received reply code. -/
theorem claim_C1_rcpt_classification (code : Int) (message : String) :
    interpret_rcpt_response code message = rcptSpecResult code message := by
  unfold interpret_rcpt_response rcptSpecResult
  split_ifs <;> first | rfl | (exfalso; omega)

/-! ### DNS outcomes and MX record processing

A single DNS query for the MX records of a domain is modelled by its
observable outcome: the answer records (preference, exchange text), or one of
the `dns.resolver` and `dns.exception` failure classes handled by the code.
`dns.exception.Timeout` and `dns.resolver.LifetimeTimeout` are caught by the
same handler and are modelled as one constructor. -/

inductive DnsOutcome where
  | records (rs : List (Int × String))
  | nxdomain
  | noAnswer
  | noNameservers
  | timeout
  | otherError (msg : String)

/-- Python `str(answer.exchange).rstrip(".")`: remove every trailing dot. -/
def rstripDots (s : String) : String :=
  String.mk ((s.data.reverse.dropWhile (· == '.')).reverse)

/-- `a.1 ≤ b.1` as the Boolean comparison used for `sorted(key=lambda x: x[0])`. -/
def prefLE (a b : Int × String) : Bool := a.1 ≤ b.1

/-- Python's built-in `sorted(mx_records, key=lambda x: x[0])`: a stable
ascending sort on the preference component, embedded by the stable
`List.mergeSort`. -/
def pySortedByPref (rs : List (Int × String)) : List (Int × String) :=
  rs.mergeSort prefLE

/-- `[host for _, host in sorted(mx_records, key=lambda x: x[0]) if host]`. -/
def mxHostsFrom (rs : List (Int × String)) : List String :=
  ((pySortedByPref rs).filter (fun p => p.2 != "")).map (fun p => p.2)

/-- The result body shared by both `_lookup_uncached` implementations for the
records-returned case. -/
def recordsResult (domain : String) (rs : List (Int × String)) : MXLookupResult :=
  let mx_records := rs.map (fun p => (p.1, rstripDots p.2))
  let mx_hosts := mxHostsFrom mx_records
  if mx_hosts.isEmpty then
    ⟨domain, .mx_missing, [], "MX-записи отсутствуют или некорректны"⟩
  else
    ⟨domain, .valid, mx_hosts, "MX-записи найдены"⟩

/-- A process-lifetime cache, mapping a domain to its lookup result.  Python
dict semantics are embedded as an association list where an update replaces
any previous binding of the key. -/
abbrev MXCache := List (String × MXLookupResult)

def cacheGet (c : MXCache) (d : String) : Option MXLookupResult :=
  (c.find? (fun p => p.1 == d)).map (·.2)

def cacheSet (c : MXCache) (d : String) (r : MXLookupResult) : MXCache :=
  (d, r) :: c.filter (fun p => p.1 != d)

/-- Network/delay events performed by an MX lookup. -/
inductive MxEvent where
  | query (attempt : Nat)
  | sleep (d : ℚ)
deriving DecidableEq, Repr

namespace Ork

/-- Configuration of `ork`'s `DomainMXChecker.__init__` (the resolver servers
live inside the DNS oracle and the timeout only bounds the oracle's
behaviour, so neither influences the embedded control flow). -/
structure MXConfig where
  timeout : ℚ := 8
  dns_retries : Int := 2
  dns_retry_delay : ℚ := 1/4
deriving Repr

/-- `self.dns_retries = max(1, dns_retries)`. -/
def MXConfig.retries (cfg : MXConfig) : Nat := (max 1 cfg.dns_retries).toNat

/-- `self.dns_retry_delay = max(0.0, dns_retry_delay)`. -/
def MXConfig.retryDelay (cfg : MXConfig) : ℚ := max 0 cfg.dns_retry_delay

theorem MXConfig.one_le_retries (cfg : MXConfig) : 1 ≤ cfg.retries := by
  have h : (1 : Int) ≤ max 1 cfg.dns_retries := le_max_left _ _
  unfold MXConfig.retries
  omega

/-- `self._non_cacheable_details`. -/
def nonCacheableDetails : List String :=
  ["таймаут DNS при проверке MX", "DNS nameserver недоступен"]

/-- Whether the outcome is one of the transient failures that the retry loop
retries while attempts remain (`NoNameservers`, `Timeout`/`LifetimeTimeout`). -/
def dnsRetryable : DnsOutcome → Bool
  | .noNameservers => true
  | .timeout => true
  | _ => false

/-- The result returned by an iteration of `_lookup_uncached` when it does
not continue to another attempt (either a terminal outcome, or a transient
failure on the final attempt). -/
def dnsTerminal (domain : String) : DnsOutcome → MXLookupResult
  | .records rs => recordsResult domain rs
  | .nxdomain => ⟨domain, .domain_missing, [], "домен отсутствует"⟩
  | .noAnswer => ⟨domain, .mx_missing, [], "MX-записи отсутствуют или некорректны"⟩
  | .noNameservers => ⟨domain, .mx_missing, [], "DNS nameserver недоступен"⟩
  | .timeout => ⟨domain, .mx_missing, [], "таймаут DNS при проверке MX"⟩
  | .otherError msg => ⟨domain, .mx_missing, [], "ошибка DNS: " ++ msg⟩

/-- The retry loop of `ork`'s `DomainMXChecker._lookup_uncached`.  `attempt`
is the 1-based attempt counter, `remaining` the number of loop iterations
left; the DNS oracle `orc` gives the outcome of each attempt.  On a
transient failure the loop returns the failure's detail when this was the
last attempt (`attempt < self.dns_retries` fails exactly when one iteration
remains) and otherwise sleeps the fixed retry delay and continues.  The
`remaining = 0` case is the function's trailing `return` after the loop
(unreachable when at least one attempt runs). -/
def lookup_uncached_go (orc : Nat → DnsOutcome) (domain : String) (delay : ℚ)
    (attempt : Nat) : Nat → MXLookupResult × List MxEvent
  | 0 => (⟨domain, .mx_missing, [], "таймаут DNS при проверке MX"⟩, [])
  | 1 => (dnsTerminal domain (orc attempt), [.query attempt])
  | r + 2 =>
    if dnsRetryable (orc attempt) then
      let next := lookup_uncached_go orc domain delay (attempt + 1) (r + 1)
      (next.1, .query attempt :: .sleep delay :: next.2)
    else
      (dnsTerminal domain (orc attempt), [.query attempt])

/-- `ork`'s `DomainMXChecker._lookup_uncached`. -/
def lookup_uncached (cfg : MXConfig) (orc : Nat → DnsOutcome) (domain : String) :
    MXLookupResult × List MxEvent :=
  lookup_uncached_go orc domain cfg.retryDelay 1 cfg.retries

/-- `ork`'s `DomainMXChecker.lookup`: cache hit short-circuits all I/O; a
fresh result is cached only when its detail is not a non-cacheable
transient-failure marker. -/
def lookup (cfg : MXConfig) (orc : Nat → DnsOutcome) (cache : MXCache)
    (domain : String) : MXLookupResult × MXCache × List MxEvent :=
  match cacheGet cache domain with
  | some r => (r, cache, [])
  | none =>
    let fresh := lookup_uncached cfg orc domain
    if nonCacheableDetails.contains fresh.1.detail then
      (fresh.1, cache, fresh.2)
    else
      (fresh.1, cacheSet cache domain fresh.1, fresh.2)

/-- A whole resolver lifetime: the cache produced by an arbitrary sequence of
`lookup` calls (each with its own DNS-oracle behaviour), starting from the
empty cache of `__init__`. -/
def run_lookups (cfg : MXConfig) (calls : List (String × (Nat → DnsOutcome)))
    (cache : MXCache) : MXCache :=
  match calls with
  | [] => cache
  | c :: rest => run_lookups cfg rest (lookup cfg c.2 cache c.1).2.1

/-- The invariant of the MX cache: no cached entry carries a non-cacheable
transient-failure detail. -/
def CacheInv (c : MXCache) : Prop :=
  ∀ p ∈ c, nonCacheableDetails.contains p.2.detail = false

/-- The event trace of `remaining` consecutive failing DNS attempts starting
at attempt number `attempt`: a query per attempt with the fixed retry delay
slept between consecutive attempts. -/
def mxRetryTrace (d : ℚ) (attempt : Nat) : Nat → List MxEvent
  | 0 => []
  | 1 => [.query attempt]
  | r + 2 => .query attempt :: .sleep d :: mxRetryTrace d (attempt + 1) (r + 1)

theorem lookup_uncached_go_allNoNameservers (orc : Nat → DnsOutcome) (domain : String)
    (d : ℚ) (h : ∀ a, orc a = .noNameservers) :
    ∀ r attempt, 1 ≤ r →
      lookup_uncached_go orc domain d attempt r
        = (⟨domain, .mx_missing, [], "DNS nameserver недоступен"⟩, mxRetryTrace d attempt r)
  | 1, attempt, _ => by
    simp [lookup_uncached_go, h, mxRetryTrace, dnsTerminal]
  | r + 2, attempt, _ => by
    simp [lookup_uncached_go, h, mxRetryTrace, dnsRetryable,
      lookup_uncached_go_allNoNameservers orc domain d h (r + 1) (attempt + 1) (by omega)]

theorem lookup_uncached_go_allTimeout (orc : Nat → DnsOutcome) (domain : String)
    (d : ℚ) (h : ∀ a, orc a = .timeout) :
    ∀ r attempt, 1 ≤ r →
      lookup_uncached_go orc domain d attempt r
        = (⟨domain, .mx_missing, [], "таймаут DNS при проверке MX"⟩, mxRetryTrace d attempt r)
  | 1, attempt, _ => by
    simp [lookup_uncached_go, h, mxRetryTrace, dnsTerminal]
  | r + 2, attempt, _ => by
    simp [lookup_uncached_go, h, mxRetryTrace, dnsRetryable,
      lookup_uncached_go_allTimeout orc domain d h (r + 1) (attempt + 1) (by omega)]

/-- An uncached lookup with at least one attempt left always starts with a
DNS query. -/
theorem lookup_uncached_go_head (orc : Nat → DnsOutcome) (domain : String) (d : ℚ)
    (r attempt : Nat) (hr : 1 ≤ r) :
    ((lookup_uncached_go orc domain d attempt r).2).head? = some (.query attempt) := by
  match r, hr with
  | 1, _ => simp [lookup_uncached_go]
  | n + 2, _ =>
    simp only [lookup_uncached_go]
    split <;> simp

theorem lookup_uncached_head (cfg : MXConfig) (orc : Nat → DnsOutcome) (domain : String) :
    ((lookup_uncached cfg orc domain).2).head? = some (.query 1) :=
  lookup_uncached_go_head orc domain cfg.retryDelay cfg.retries 1 cfg.one_le_retries

theorem cacheGet_mem {c : MXCache} {d : String} {r : MXLookupResult}
    (h : cacheGet c d = some r) : ∃ p ∈ c, p.2 = r := by
  unfold cacheGet at h
  cases hf : c.find? (fun p => p.1 == d) with
  | none => simp [hf] at h
  | some p =>
    refine ⟨p, List.mem_of_find?_eq_some hf, ?_⟩
    simp [hf] at h
    exact h

/-- Each `lookup` call preserves the cache invariant. -/
theorem lookup_preserves_inv (cfg : MXConfig) (orc : Nat → DnsOutcome)
    (cache : MXCache) (domain : String) (h : CacheInv cache) :
    CacheInv (lookup cfg orc cache domain).2.1 := by
  unfold lookup
  cases hc : cacheGet cache domain with
  | some r => exact h
  | none =>
    simp only []
    split
    · exact h
    · rename_i hnc
      intro p hp
      rcases List.mem_cons.1 hp with hp | hp
      · subst hp
        simpa using hnc
      · exact h p (List.mem_of_mem_filter hp)

/-- **C3.** At every point in the resolver's lifetime the MX cache contains
only entries whose detail is not a designated non-cacheable
transient-failure marker; and after a `lookup` returns such a non-cacheable
result, the domain is absent from the cache, so the next `lookup` for it
performs a fresh DNS query instead of returning a cached value. -/
theorem claim_C3_mx_cache_invariant :
    (∀ (cfg : MXConfig) (calls : List (String × (Nat → DnsOutcome))),
      CacheInv (run_lookups cfg calls []))
    ∧ (∀ (cfg : MXConfig) (orc orc' : Nat → DnsOutcome) (cache : MXCache) (domain : String),
        CacheInv cache →
        nonCacheableDetails.contains (lookup cfg orc cache domain).1.detail = true →
        cacheGet (lookup cfg orc cache domain).2.1 domain = none
        ∧ ((lookup cfg orc' (lookup cfg orc cache domain).2.1 domain).2.2).head?
            = some (.query 1)) := by
  constructor
  · intro cfg calls
    have hgen : ∀ (calls : List (String × (Nat → DnsOutcome))) (cache : MXCache),
        CacheInv cache → CacheInv (run_lookups cfg calls cache) := by
      intro calls
      induction calls with
      | nil => intro cache h; exact h
      | cons c rest ih =>
        intro cache h
        exact ih _ (lookup_preserves_inv cfg c.2 cache c.1 h)
    exact hgen calls [] (by intro p hp; cases hp)
  · intro cfg orc orc' cache domain hinv hdet
    cases hc : cacheGet cache domain with
    | some r =>
      exfalso
      obtain ⟨p, hp, hpr⟩ := cacheGet_mem hc
      have hfalse := hinv p hp
      rw [hpr] at hfalse
      simp only [lookup, hc] at hdet
      rw [hfalse] at hdet
      exact Bool.false_ne_true hdet
    | none =>
      have hfst : (lookup cfg orc cache domain).1 = (lookup_uncached cfg orc domain).1 := by
        simp only [lookup, hc]
        split <;> rfl
      rw [hfst] at hdet
      have hcase : (lookup cfg orc cache domain).2.1 = cache := by
        simp only [lookup, hc, hdet, if_true]
      rw [hcase]
      refine ⟨hc, ?_⟩
      have htr : (lookup cfg orc' cache domain).2.2 = (lookup_uncached cfg orc' domain).2 := by
        simp only [lookup, hc]
        split <;> rfl
      rw [htr]
      exact lookup_uncached_head cfg orc' domain

/-- A records answer on the first attempt settles the uncached lookup with
the shared records-processing result, whatever the retry budget. -/
theorem lookup_uncached_records (cfg : MXConfig) (orc : Nat → DnsOutcome)
    (domain : String) (rs : List (Int × String)) (h : orc 1 = .records rs) :
    (lookup_uncached cfg orc domain).1 = recordsResult domain rs := by
  have h1r := cfg.one_le_retries
  obtain ⟨k, hk⟩ : ∃ k, cfg.retries = k + 1 := ⟨cfg.retries - 1, by omega⟩
  unfold lookup_uncached
  rw [hk]
  cases k with
  | zero => simp [lookup_uncached_go, h, dnsTerminal]
  | succ n => simp [lookup_uncached_go, h, dnsRetryable, dnsTerminal]

/-- Witness for C3: a lifetime consisting of one timed-out lookup leaves the
cache clean, and the repeated lookup starts with a fresh DNS query. -/
theorem claim_C3_mx_cache_invariant_witness :
    CacheInv (run_lookups {} [("a.com", fun _ => DnsOutcome.timeout)] [])
    ∧ (cacheGet (lookup {} (fun _ => DnsOutcome.timeout) [] "a.com").2.1 "a.com" = none
      ∧ ((lookup {} (fun _ => DnsOutcome.timeout)
            (lookup {} (fun _ => DnsOutcome.timeout) [] "a.com").2.1 "a.com").2.2).head?
          = some (.query 1)) :=
  ⟨claim_C3_mx_cache_invariant.1 {} _,
   claim_C3_mx_cache_invariant.2 {} _ _ [] "a.com" (by intro p hp; cases hp) (by decide)⟩

end Ork

/-- **C5.** When every DNS attempt for an uncached domain fails with
"no reachable nameserver" (resp. with a query timeout), `_lookup_uncached`
performs exactly the configured number of attempts with the fixed retry
delay slept between consecutive attempts, and returns `mx_missing` with a
detail message that distinguishes the nameserver-unreachable case from the
timeout case; being a total function of the oracle, it never raises. -/
theorem claim_C5_dns_retry_exhaustion (cfg : Ork.MXConfig) (domain : String)
    (orc orc' : Nat → DnsOutcome)
    (hN : ∀ a, orc a = .noNameservers) (hT : ∀ a, orc' a = .timeout) :
    Ork.lookup_uncached cfg orc domain
      = (⟨domain, .mx_missing, [], "DNS nameserver недоступен"⟩,
         Ork.mxRetryTrace cfg.retryDelay 1 cfg.retries)
    ∧ Ork.lookup_uncached cfg orc' domain
      = (⟨domain, .mx_missing, [], "таймаут DNS при проверке MX"⟩,
         Ork.mxRetryTrace cfg.retryDelay 1 cfg.retries)
    ∧ ("DNS nameserver недоступен" : String) ≠ "таймаут DNS при проверке MX" :=
  ⟨Ork.lookup_uncached_go_allNoNameservers orc domain cfg.retryDelay hN
      cfg.retries 1 cfg.one_le_retries,
   Ork.lookup_uncached_go_allTimeout orc' domain cfg.retryDelay hT
      cfg.retries 1 cfg.one_le_retries,
   by decide⟩

/-- Witness for C5 at the default configuration and constant-failure oracles. -/
theorem claim_C5_dns_retry_exhaustion_witness :
    Ork.lookup_uncached {} (fun _ => DnsOutcome.noNameservers) "example.com"
      = (⟨"example.com", .mx_missing, [], "DNS nameserver недоступен"⟩,
         Ork.mxRetryTrace (Ork.MXConfig.retryDelay {}) 1 (Ork.MXConfig.retries {}))
    ∧ Ork.lookup_uncached {} (fun _ => DnsOutcome.timeout) "example.com"
      = (⟨"example.com", .mx_missing, [], "таймаут DNS при проверке MX"⟩,
         Ork.mxRetryTrace (Ork.MXConfig.retryDelay {}) 1 (Ork.MXConfig.retries {}))
    ∧ ("DNS nameserver недоступен" : String) ≠ "таймаут DNS при проверке MX" :=
  claim_C5_dns_retry_exhaustion {} "example.com" _ _ (fun _ => rfl) (fun _ => rfl)

/-! ### Stability of the preference sort (for C6) -/

theorem prefLE_trans (a b c : Int × String) (hab : prefLE a b) (hbc : prefLE b c) :
    prefLE a c := by
  simp only [prefLE, decide_eq_true_eq] at *
  omega

theorem prefLE_total (a b : Int × String) : prefLE a b || prefLE b a := by
  simp only [prefLE]
  rcases Int.le_total a.1 b.1 with h | h <;> simp [h]

/-- Stability of the Python sort, in filter form: the sub-sequence of
entries with any fixed preference value is untouched by the sort. -/
theorem pySortedByPref_filter_key (rs : List (Int × String)) (p : Int) :
    (pySortedByPref rs).filter (fun x => x.1 == p)
      = rs.filter (fun x => x.1 == p) := by
  have hall : ∀ x ∈ rs.filter (fun x => x.1 == p), x.1 = p := by
    intro x hx
    simpa using (List.mem_filter.1 hx).2
  have hpair : (rs.filter (fun x => x.1 == p)).Pairwise (fun a b => prefLE a b) := by
    apply List.pairwise_of_forall_mem_list
    intro a ha b hb
    have h1 := hall a ha
    have h2 := hall b hb
    simp [prefLE, h1, h2]
  have h1 : List.Sublist (rs.filter (fun x => x.1 == p)) (pySortedByPref rs) :=
    List.sublist_mergeSort prefLE_trans prefLE_total hpair (List.filter_sublist rs)
  have h2 : (rs.filter (fun x => x.1 == p)).filter (fun x => x.1 == p)
      = rs.filter (fun x => x.1 == p) := by
    rw [List.filter_eq_self]
    intro a ha
    simpa using hall a ha
  have h3 : List.Sublist (rs.filter (fun x => x.1 == p))
      ((pySortedByPref rs).filter (fun x => x.1 == p)) := by
    have := h1.filter (fun x => x.1 == p)
    rwa [h2] at this
  have h4 : List.Perm ((pySortedByPref rs).filter (fun x => x.1 == p))
      (rs.filter (fun x => x.1 == p)) :=
    (List.mergeSort_perm rs prefLE).filter _
  exact (h3.eq_of_length h4.length_eq.symm).symm

theorem pySortedByPref_sorted (rs : List (Int × String)) :
    (pySortedByPref rs).Pairwise (fun a b => a.1 ≤ b.1) := by
  have h : (rs.mergeSort prefLE).Pairwise (fun a b => prefLE a b) :=
    List.sorted_mergeSort prefLE_trans prefLE_total rs
  exact h.imp (by intro a b hab; simpa [prefLE] using hab)

/-- The `mx_records` list that `_lookup_uncached` builds from the DNS answer:
preference values paired with the dot-stripped exchange names. -/
def mxRecordsOf (rs : List (Int × String)) : List (Int × String) :=
  rs.map (fun q => (q.1, rstripDots q.2))

/-- The answer records that survive the empty-name filter (with the
preference values still attached), in original answer order. -/
def mxFiltered (rs : List (Int × String)) : List (Int × String) :=
  (mxRecordsOf rs).filter (fun q => q.2 != "")

/-- Exchanging the empty-name filter and a preference-key filter. -/
theorem filter_name_key_comm (m : List (Int × String)) (p : Int) :
    (m.filter (fun q => q.2 != "")).filter (fun x => x.1 == p)
      = (m.filter (fun x => x.1 == p)).filter (fun q => q.2 != "") := by
  rw [List.filter_filter, List.filter_filter]
  congr 1
  funext x
  rw [Bool.and_comm]

/-- **C6.** For an uncached lookup whose DNS query returns MX records, the
returned host list is the dot-stripped record hostnames sorted ascending by
preference value with ties left in original record order, after dropping
hosts with an empty name (the sorted survivor list `l` below is unique: it
is a permutation of the survivors, sorted by preference, and each
fixed-preference sub-sequence keeps its original order).  If some host
survives the filter the status is `valid` with that ordered list; if none
survives the status is `mx_missing`. -/
theorem claim_C6_mx_host_ordering (cfg : Ork.MXConfig) (domain : String)
    (orc : Nat → DnsOutcome) (rs : List (Int × String))
    (hfirst : orc 1 = .records rs) :
    (mxFiltered rs = [] →
      (Ork.lookup_uncached cfg orc domain).1
        = ⟨domain, .mx_missing, [], "MX-записи отсутствуют или некорректны"⟩)
    ∧ (mxFiltered rs ≠ [] →
      (Ork.lookup_uncached cfg orc domain).1.status = .valid
      ∧ (Ork.lookup_uncached cfg orc domain).1.detail = "MX-записи найдены"
      ∧ ∃ l : List (Int × String),
          List.Perm l (mxFiltered rs)
          ∧ l.Pairwise (fun a b => a.1 ≤ b.1)
          ∧ (∀ p : Int, l.filter (fun x => x.1 == p)
              = (mxFiltered rs).filter (fun x => x.1 == p))
          ∧ (Ork.lookup_uncached cfg orc domain).1.mx_hosts
              = l.map (fun x => x.2)) := by
  have hres := Ork.lookup_uncached_records cfg orc domain rs hfirst
  have hperm : List.Perm
      ((pySortedByPref (mxRecordsOf rs)).filter (fun q => q.2 != ""))
      (mxFiltered rs) :=
    (List.mergeSort_perm (mxRecordsOf rs) prefLE).filter _
  have hhosts : mxHostsFrom (mxRecordsOf rs)
      = ((pySortedByPref (mxRecordsOf rs)).filter (fun q => q.2 != "")).map
          (fun q => q.2) := rfl
  constructor
  · intro hemp
    have hlen := hperm.length_eq
    rw [hemp, List.length_nil, List.length_eq_zero] at hlen
    rw [hres]
    unfold recordsResult
    rw [show (rs.map fun p => (p.1, rstripDots p.2)) = mxRecordsOf rs from rfl]
    simp [hhosts, hlen]
  · intro hne
    have hlen := hperm.length_eq
    have hnonempty :
        (pySortedByPref (mxRecordsOf rs)).filter (fun q => q.2 != "") ≠ [] := by
      intro h0
      rw [h0, List.length_nil] at hlen
      exact hne ((List.length_eq_zero).1 hlen.symm)
    have hmx : (Ork.lookup_uncached cfg orc domain).1
        = ⟨domain, .valid, mxHostsFrom (mxRecordsOf rs), "MX-записи найдены"⟩ := by
      rw [hres]
      unfold recordsResult
      rw [show (rs.map fun p => (p.1, rstripDots p.2)) = mxRecordsOf rs from rfl]
      rw [if_neg]
      simp only [List.isEmpty_iff, hhosts]
      intro hmap
      exact hnonempty (List.map_eq_nil_iff.1 hmap)
    refine ⟨by rw [hmx], by rw [hmx], ?_⟩
    refine ⟨(pySortedByPref (mxRecordsOf rs)).filter (fun q => q.2 != ""),
      hperm, ?_, ?_, by rw [hmx]; exact hhosts⟩
    · exact List.Pairwise.sublist (List.filter_sublist _)
        (pySortedByPref_sorted (mxRecordsOf rs))
    · intro p
      calc ((pySortedByPref (mxRecordsOf rs)).filter (fun q => q.2 != "")).filter
              (fun x => x.1 == p)
          = ((pySortedByPref (mxRecordsOf rs)).filter (fun x => x.1 == p)).filter
              (fun q => q.2 != "") := filter_name_key_comm _ p
        _ = ((mxRecordsOf rs).filter (fun x => x.1 == p)).filter
              (fun q => q.2 != "") := by rw [pySortedByPref_filter_key]
        _ = (mxFiltered rs).filter (fun x => x.1 == p) :=
              (filter_name_key_comm (mxRecordsOf rs) p).symm

/-- Witness for C6: a concrete answer with a tie at preference 10, an empty
name at preference 7 and unsorted input order. -/
theorem claim_C6_mx_host_ordering_witness :
    mxFiltered
        [((20 : Int), "mx2.example.com."), (10, "mxb.example.com"),
         (7, "."), (10, "mxa.example.com"), (5, "mx0.example.com")] ≠ []
    ∧ ((Ork.lookup_uncached {}
          (fun _ => DnsOutcome.records
            [((20 : Int), "mx2.example.com."), (10, "mxb.example.com"),
             (7, "."), (10, "mxa.example.com"), (5, "mx0.example.com")])
          "example.com").1.status = .valid
      ∧ (Ork.lookup_uncached {}
          (fun _ => DnsOutcome.records
            [((20 : Int), "mx2.example.com."), (10, "mxb.example.com"),
             (7, "."), (10, "mxa.example.com"), (5, "mx0.example.com")])
          "example.com").1.detail = "MX-записи найдены"
      ∧ ∃ l : List (Int × String),
          List.Perm l (mxFiltered
            [((20 : Int), "mx2.example.com."), (10, "mxb.example.com"),
             (7, "."), (10, "mxa.example.com"), (5, "mx0.example.com")])
          ∧ l.Pairwise (fun a b => a.1 ≤ b.1)
          ∧ (∀ p : Int, l.filter (fun x => x.1 == p)
              = (mxFiltered
                  [((20 : Int), "mx2.example.com."), (10, "mxb.example.com"),
                   (7, "."), (10, "mxa.example.com"), (5, "mx0.example.com")]).filter
                  (fun x => x.1 == p))
          ∧ (Ork.lookup_uncached {}
              (fun _ => DnsOutcome.records
                [((20 : Int), "mx2.example.com."), (10, "mxb.example.com"),
                 (7, "."), (10, "mxa.example.com"), (5, "mx0.example.com")])
              "example.com").1.mx_hosts = l.map (fun x => x.2)) :=
  ⟨by decide,
   (claim_C6_mx_host_ordering {} "example.com" _ _ rfl).2 (by decide)⟩

/-! ### SMTP handshake prober

A single `_verify_with_host` call is modelled by the observable outcome of
its SMTP conversation: either the pair of MAIL FROM / RCPT TO replies, an
`smtplib.SMTPException` caught at the end (returning an `unknown` result),
or one of the transport-level exceptions, which yield no classified result
and (in `ork`) put the host into cooldown tagged with a failure reason. -/

/-- The transport-level exception classes caught by `_verify_with_host`. -/
inductive TransportFail where
  | timeout
  | connectError (msg : String)
  | disconnected
  | networkError (msg : String)
deriving DecidableEq, Repr

/-- The failure reason recorded by `_mark_host_unavailable` for each
transport-level exception. -/
def TransportFail.reason : TransportFail → String
  | .timeout => "timeout"
  | .connectError msg => "connect error: " ++ msg
  | .disconnected => "server disconnected"
  | .networkError msg => "network error: " ++ msg

/-- Observable outcome of one `_verify_with_host` conversation. -/
inductive AttemptOutcome where
  | transport (t : TransportFail)
  | smtpError (msg : String)
  | replies (mail_code : Int) (mail_msg : String) (rcpt_code : Int) (rcpt_msg : String)
deriving DecidableEq, Repr

/-- `_verify_with_host`, as a function of the conversation outcome: a
classified `SMTPCheckResult` (`Sum.inl`), or `None` together with the
cooldown reason of the transport failure (`Sum.inr`).  A MAIL FROM reply
code ≥ 500 returns `unknown` immediately with that code; otherwise the RCPT
reply is classified by `_interpret_rcpt_response`. -/
def verify_with_host_result : AttemptOutcome → Sum SMTPCheckResult String
  | .replies mail_code mail_msg rcpt_code rcpt_msg =>
    if mail_code ≥ 500 then
      .inl ⟨.unknown, s!"MAIL FROM отклонен: {mail_code} {mail_msg}", some mail_code⟩
    else
      .inl (interpret_rcpt_response rcpt_code rcpt_msg)
  | .smtpError msg => .inl ⟨.unknown, "SMTP ошибка: " ++ msg, none⟩
  | .transport t => .inr t.reason

/-- Network/delay events performed by `verify`; `connect` stands for one
`_verify_with_host` invocation (which always opens a connection). -/
inductive SmtpEvent where
  | connect (hostIdx : Nat) (host : String) (attempt : Nat)
  | sleepRetry (d : ℚ)
deriving DecidableEq, Repr

/-- Python `pat in s` on strings: `pat` occurs as a contiguous substring. -/
def strMentions (pat s : String) : Bool :=
  (List.range (s.data.length + 1)).any
    (fun i => (s.data.drop i).take pat.data.length == pat.data)

/-- Python `l[-n:]`: the at most `n` last elements. -/
def lastN {α : Type} (n : Nat) (l : List α) : List α := l.drop (l.length - n)

/-- `f"{host}: попытка {attempt} не удалась"`. -/
def attemptNote (host : String) (attempt : Nat) : String :=
  s!"{host}: попытка {attempt} не удалась"

/-- `mx_hosts[: max(1, self.config.max_mx_tries)]`. -/
def hostCandidates (max_mx_tries : Int) (mx_hosts : List String) : List String :=
  mx_hosts.take (max 1 max_mx_tries).toNat

/-- Generic association-list embedding of a Python `dict[str, V]`. -/
def aget {α : Type} (l : List (String × α)) (k : String) : Option α :=
  (l.find? (fun p => p.1 == k)).map (·.2)

def aset {α : Type} (l : List (String × α)) (k : String) (v : α) : List (String × α) :=
  (k, v) :: l.filter (fun p => p.1 != k)

def aerase {α : Type} (l : List (String × α)) (k : String) : List (String × α) :=
  l.filter (fun p => p.1 != k)

theorem aget_aset {α : Type} (l : List (String × α)) (k : String) (v : α) :
    aget (aset l k v) k = some v := by
  simp [aget, aset]

namespace Ork

/-- `ork`'s `SMTPCheckerConfig` dataclass. -/
structure SMTPCheckerConfig where
  timeout : ℚ := 8
  max_mx_tries : Int := 2
  mail_from : String := "verify@yourdomain.test"
  helo_host : String := "localhost"
  retry_attempts : Int := 2
  retry_delay_sec : ℚ := 7/20
  try_starttls : Bool := true
  host_failure_cooldown_sec : ℚ := 300
deriving Repr

/-- The prober's mutable per-host state:
`self._host_unavailable_until` and `self._host_unavailable_reason`. -/
structure ProberState where
  host_unavailable_until : List (String × ℚ) := []
  host_unavailable_reason : List (String × String) := []
deriving Repr

/-- The SMTP-level external nondeterminism of one `verify` call: the outcome
of the `attempt`-th conversation with the `hostIdx`-th candidate, the
wall-clock time read when a transport failure is recorded, and the
wall-clock time read by the cooldown check of each candidate. -/
structure SmtpOracle where
  outcome : Nat → Nat → AttemptOutcome
  fail_time : Nat → Nat → ℚ
  check_time : Nat → ℚ

/-- `_mark_host_unavailable(host, reason)` at wall-clock time `now`:
a non-positive configured cooldown disables the table entirely. -/
def mark_host_unavailable (cooldownSec : ℚ) (st : ProberState)
    (host reason : String) (now : ℚ) : ProberState :=
  let cooldown := max 0 cooldownSec
  if cooldown ≤ 0 then st
  else
    { host_unavailable_until := aset st.host_unavailable_until host (now + cooldown)
      host_unavailable_reason := aset st.host_unavailable_reason host reason }

/-- The skip note recorded for a host in cooldown,
`f"{host}: skip due to recent {reason} (cooldown {wait_left}s)"`. -/
def skipNote (host reason : String) (wait_left : Int) : String :=
  s!"{host}: skip due to recent {reason} (cooldown {wait_left}s)"

/-- `_cooldown_note(host)` at wall-clock time `now`: `None` when the host
has no entry; lazy purge and `None` when the entry has expired
(`now >= unavailable_until`); otherwise the skip note with the truncated
remaining seconds and the recorded reason. -/
def cooldown_note (st : ProberState) (host : String) (now : ℚ) :
    Option String × ProberState :=
  match aget st.host_unavailable_until host with
  | none => (none, st)
  | some unavailable_until =>
    if now ≥ unavailable_until then
      (none,
       { host_unavailable_until := aerase st.host_unavailable_until host
         host_unavailable_reason := aerase st.host_unavailable_reason host })
    else
      let reason := (aget st.host_unavailable_reason host).getD "host unavailable"
      let wait_left : Int := ⌊unavailable_until - now⌋
      (some (skipNote host reason wait_left), st)

/-- The retry loop over attempts at one host in `verify`: up to
`retry_attempts` conversations, sleeping the fixed retry delay between
attempts; a transport failure marks the host unavailable and accumulates an
attempt-failure note; a classified result ends the whole `verify` call. -/
def attempt_loop (cooldownSec retryDelay : ℚ) (orc : SmtpOracle) (hostIdx : Nat)
    (host : String) (st : ProberState) (errors : List String) (attempt : Nat) :
    Nat → Option SMTPCheckResult × ProberState × List String × List SmtpEvent
  | 0 => (none, st, errors, [])
  | 1 =>
    match verify_with_host_result (orc.outcome hostIdx attempt) with
    | .inl res => (some res, st, errors, [.connect hostIdx host attempt])
    | .inr reason =>
      (none,
       mark_host_unavailable cooldownSec st host reason (orc.fail_time hostIdx attempt),
       errors ++ [attemptNote host attempt], [.connect hostIdx host attempt])
  | r + 2 =>
    match verify_with_host_result (orc.outcome hostIdx attempt) with
    | .inl res => (some res, st, errors, [.connect hostIdx host attempt])
    | .inr reason =>
      let next := attempt_loop cooldownSec retryDelay orc hostIdx host
        (mark_host_unavailable cooldownSec st host reason (orc.fail_time hostIdx attempt))
        (errors ++ [attemptNote host attempt]) (attempt + 1) (r + 1)
      (next.1, next.2.1, next.2.2.1,
       .connect hostIdx host attempt :: .sleepRetry retryDelay :: next.2.2.2)

/-- The loop over candidate hosts in `verify`: a host in cooldown is skipped
with its note recorded and no connection attempted; otherwise the attempt
loop runs and a classified result is returned immediately. -/
def host_loop (cooldownSec retryDelay : ℚ) (retryNat : Nat) (orc : SmtpOracle)
    (st : ProberState) (errors : List String) (hostIdx : Nat) :
    List String → Option SMTPCheckResult × ProberState × List String × List SmtpEvent
  | [] => (none, st, errors, [])
  | host :: rest =>
    match cooldown_note st host (orc.check_time hostIdx) with
    | (some note, st2) =>
      host_loop cooldownSec retryDelay retryNat orc st2 (errors ++ [note])
        (hostIdx + 1) rest
    | (none, st2) =>
      let a := attempt_loop cooldownSec retryDelay orc hostIdx host st2 errors 1 retryNat
      match a.1 with
      | some res => (some res, a.2.1, a.2.2.1, a.2.2.2)
      | none =>
        let b := host_loop cooldownSec retryDelay retryNat orc a.2.1 a.2.2.1
          (hostIdx + 1) rest
        (b.1, b.2.1, b.2.2.1, a.2.2.2 ++ b.2.2.2)

/-- The hint appended when an accumulated note mentions a timeout or a
network error. -/
def blockHint : String :=
  " Вероятно, исходящие SMTP-подключения на 25 порт блокируются сетью/провайдером."

/-- `ork`'s `SMTPHandshakeChecker.verify`. -/
def verify (cfg : SMTPCheckerConfig) (orc : SmtpOracle) (st : ProberState)
    (target_email : String) (mx_hosts : List String) :
    SMTPCheckResult × ProberState × List SmtpEvent :=
  match mx_hosts with
  | [] => (⟨.unknown, "нет MX-хостов для SMTP проверки", none⟩, st, [])
  | _ :: _ =>
    let res := host_loop cfg.host_failure_cooldown_sec cfg.retry_delay_sec
      cfg.retry_attempts.toNat orc st [] 0 (hostCandidates cfg.max_mx_tries mx_hosts)
    match res.1 with
    | some r => (r, res.2.1, res.2.2.2)
    | none =>
      let errors := res.2.2.1
      if errors.isEmpty then
        (⟨.unknown, "не удалось проверить", none⟩, res.2.1, res.2.2.2)
      else
        let suffixStr :=
          if errors.any (fun e => strMentions "timeout" e || strMentions "network error" e)
          then blockHint else ""
        (⟨.unknown, String.intercalate "; " (lastN 4 errors) ++ suffixStr, none⟩,
         res.2.1, res.2.2.2)

end Ork

theorem intercalate_singleton (s a : String) : String.intercalate s [a] = a := rfl

namespace Ork

theorem one_le_clamped_toNat (m : Int) : 1 ≤ (max 1 m).toNat := by
  have h1 : (1 : Int) ≤ max 1 m := le_max_left _ _
  omega

theorem hostCandidates_singleton (m : Int) (h : String) :
    hostCandidates m [h] = [h] := by
  unfold hostCandidates
  obtain ⟨k, hk⟩ : ∃ k, (max 1 m).toNat = k + 1 :=
    ⟨(max 1 m).toNat - 1, by have := one_le_clamped_toNat m; omega⟩
  rw [hk]
  simp

theorem aset_aset {α : Type} (l : List (String × α)) (k : String) (v1 v2 : α) :
    aset (aset l k v1) k v2 = aset l k v2 := by
  simp [aset, List.filter_filter]

theorem mark_mark (cooldownSec : ℚ) (st : ProberState) (host r1 r2 : String)
    (t1 t2 : ℚ) :
    mark_host_unavailable cooldownSec
        (mark_host_unavailable cooldownSec st host r1 t1) host r2 t2
      = mark_host_unavailable cooldownSec st host r2 t2 := by
  unfold mark_host_unavailable
  by_cases hc : (max 0 cooldownSec) ≤ 0
  · simp [hc]
  · simp [hc, aset_aset]

/-- A freshly marked host is skipped with the expected note at any check
time strictly before the cooldown expiry. -/
theorem cooldown_note_fresh_mark (cfgw : ℚ) (st : ProberState)
    (host reason : String) (t now : ℚ) (hw : 0 < cfgw)
    (hnow : now < t + cfgw) :
    cooldown_note (mark_host_unavailable cfgw st host reason t) host now
      = (some (skipNote host reason ⌊t + cfgw - now⌋),
         mark_host_unavailable cfgw st host reason t) := by
  have hmax : max 0 cfgw = cfgw := max_eq_right (le_of_lt hw)
  have hmark : mark_host_unavailable cfgw st host reason t
      = { host_unavailable_until := aset st.host_unavailable_until host (t + cfgw)
          host_unavailable_reason := aset st.host_unavailable_reason host reason } := by
    unfold mark_host_unavailable
    rw [hmax, if_neg (not_le.mpr hw)]
  rw [hmark]
  unfold cooldown_note
  rw [show aget (aset st.host_unavailable_until host (t + cfgw)) host
      = some (t + cfgw) from aget_aset _ _ _]
  simp only []
  rw [if_neg (not_le.mpr hnow)]
  rw [show aget (aset st.host_unavailable_reason host reason) host
      = some reason from aget_aset _ _ _]
  rfl

/-- A marked host becomes eligible again once the check time passes the
cooldown expiry: the note is `None` and the entry is purged. -/
theorem cooldown_note_expired (cfgw : ℚ) (st : ProberState)
    (host reason : String) (t later : ℚ) (hw : 0 < cfgw)
    (hlater : t + cfgw ≤ later) :
    (cooldown_note (mark_host_unavailable cfgw st host reason t) host later).1
      = none := by
  have hmax : max 0 cfgw = cfgw := max_eq_right (le_of_lt hw)
  have hmark : mark_host_unavailable cfgw st host reason t
      = { host_unavailable_until := aset st.host_unavailable_until host (t + cfgw)
          host_unavailable_reason := aset st.host_unavailable_reason host reason } := by
    unfold mark_host_unavailable
    rw [hmax, if_neg (not_le.mpr hw)]
  rw [hmark]
  unfold cooldown_note
  rw [show aget (aset st.host_unavailable_until host (t + cfgw)) host
      = some (t + cfgw) from aget_aset _ _ _]
  simp only []
  rw [if_pos hlater]

/-- The attempt loop always opens a connection to its host first when at
least one attempt remains. -/
theorem attempt_loop_trace_head (cooldownSec retryDelay : ℚ) (orc : SmtpOracle)
    (hostIdx : Nat) (host : String) (st : ProberState) (errors : List String)
    (attempt r : Nat) (hr : 1 ≤ r) :
    ((attempt_loop cooldownSec retryDelay orc hostIdx host st errors attempt r).2.2.2).head?
      = some (.connect hostIdx host attempt) := by
  obtain ⟨k, hk⟩ : ∃ k, r = k + 1 := ⟨r - 1, by omega⟩
  subst hk
  cases k <;> cases h : verify_with_host_result (orc.outcome hostIdx attempt) <;>
    simp [attempt_loop, h]

/-- A host whose cooldown check comes back clear is connected to first. -/
theorem host_loop_trace_head (cooldownSec retryDelay : ℚ) (retryNat : Nat)
    (orc : SmtpOracle) (st : ProberState) (errors : List String) (hostIdx : Nat)
    (host : String) (rest : List String)
    (hc : (cooldown_note st host (orc.check_time hostIdx)).1 = none)
    (hr : 1 ≤ retryNat) :
    ((host_loop cooldownSec retryDelay retryNat orc st errors hostIdx
        (host :: rest)).2.2.2).head? = some (.connect hostIdx host 1) := by
  cases hcn : cooldown_note st host (orc.check_time hostIdx) with
  | mk o st2 =>
    rw [hcn] at hc
    simp only [] at hc
    subst hc
    simp only [host_loop, hcn]
    have hh := attempt_loop_trace_head cooldownSec retryDelay orc hostIdx host st2
      errors 1 retryNat hr
    cases ha : (attempt_loop cooldownSec retryDelay orc hostIdx host st2 errors 1
        retryNat).1 with
    | some res => simpa [ha] using hh
    | none =>
      simp only [ha, List.head?_append, hh]
      rfl

/-- `verify` on a non-empty host list reports exactly the events of its
host loop. -/
theorem verify_trace_eq (cfg : SMTPCheckerConfig) (orc : SmtpOracle)
    (st : ProberState) (email h : String) (t : List String) :
    (verify cfg orc st email (h :: t)).2.2
      = (host_loop cfg.host_failure_cooldown_sec cfg.retry_delay_sec
          cfg.retry_attempts.toNat orc st [] 0
          (hostCandidates cfg.max_mx_tries (h :: t))).2.2.2 := by
  rcases hres : host_loop cfg.host_failure_cooldown_sec cfg.retry_delay_sec
      cfg.retry_attempts.toNat orc st [] 0 (hostCandidates cfg.max_mx_tries (h :: t))
    with ⟨o, st2, errors2, tr⟩
  simp only [verify, hres]
  cases o with
  | some r => simp
  | none =>
    simp only []
    split <;> rfl

end Ork

/-- **C4.** After the prober marks `host` unavailable at time `t` with a
positive cooldown window `w = host_failure_cooldown_sec`: a `verify` call
whose cooldown check of that host happens at any time strictly before
`t + w` skips it without opening any connection, recording a skip note with
the truncated remaining cooldown seconds and the prior failure reason (the
note becomes the `unknown` result's detail); at any check time strictly
after `t + w` the note is gone and `verify` connects to the host again; and
a host with no cooldown entry is never skipped. -/
theorem claim_C4_host_cooldown (cfg : Ork.SMTPCheckerConfig)
    (orc orc2 : Ork.SmtpOracle) (st : Ork.ProberState)
    (host reason email : String) (t now later : ℚ)
    (hw : 0 < cfg.host_failure_cooldown_sec)
    (hnow : now < t + cfg.host_failure_cooldown_sec)
    (hchk : orc.check_time 0 = now)
    (hlater : t + cfg.host_failure_cooldown_sec < later)
    (hchk2 : orc2.check_time 0 = later)
    (hretry : 1 ≤ cfg.retry_attempts.toNat) :
    Ork.cooldown_note
        (Ork.mark_host_unavailable cfg.host_failure_cooldown_sec st host reason t)
        host now
      = (some (Ork.skipNote host reason ⌊t + cfg.host_failure_cooldown_sec - now⌋),
         Ork.mark_host_unavailable cfg.host_failure_cooldown_sec st host reason t)
    ∧ (Ork.verify cfg orc
        (Ork.mark_host_unavailable cfg.host_failure_cooldown_sec st host reason t)
        email [host]).2.2 = []
    ∧ (Ork.verify cfg orc
        (Ork.mark_host_unavailable cfg.host_failure_cooldown_sec st host reason t)
        email [host]).1
      = ⟨.unknown,
         Ork.skipNote host reason ⌊t + cfg.host_failure_cooldown_sec - now⌋
           ++ (if strMentions "timeout"
                   (Ork.skipNote host reason ⌊t + cfg.host_failure_cooldown_sec - now⌋)
                 || strMentions "network error"
                   (Ork.skipNote host reason ⌊t + cfg.host_failure_cooldown_sec - now⌋)
               then Ork.blockHint else ""), none⟩
    ∧ (Ork.cooldown_note
        (Ork.mark_host_unavailable cfg.host_failure_cooldown_sec st host reason t)
        host later).1 = none
    ∧ ((Ork.verify cfg orc2
        (Ork.mark_host_unavailable cfg.host_failure_cooldown_sec st host reason t)
        email [host]).2.2).head? = some (.connect 0 host 1)
    ∧ (aget st.host_unavailable_until host = none →
        Ork.cooldown_note st host now = (none, st)) := by
  have hnote := Ork.cooldown_note_fresh_mark cfg.host_failure_cooldown_sec st host
    reason t now hw hnow
  have hfull : Ork.verify cfg orc
      (Ork.mark_host_unavailable cfg.host_failure_cooldown_sec st host reason t)
      email [host]
      = (⟨.unknown,
          Ork.skipNote host reason ⌊t + cfg.host_failure_cooldown_sec - now⌋
            ++ (if strMentions "timeout"
                    (Ork.skipNote host reason ⌊t + cfg.host_failure_cooldown_sec - now⌋)
                  || strMentions "network error"
                    (Ork.skipNote host reason ⌊t + cfg.host_failure_cooldown_sec - now⌋)
                then Ork.blockHint else ""), none⟩,
         Ork.mark_host_unavailable cfg.host_failure_cooldown_sec st host reason t,
         []) := by
    simp only [Ork.verify, Ork.hostCandidates_singleton, Ork.host_loop, hchk, hnote]
    simp [lastN, intercalate_singleton]
  refine ⟨hnote, ?_, ?_, ?_, ?_, ?_⟩
  · rw [hfull]
  · rw [hfull]
  · exact Ork.cooldown_note_expired cfg.host_failure_cooldown_sec st host reason t
      later hw (le_of_lt hlater)
  · have hc2 : (Ork.cooldown_note
        (Ork.mark_host_unavailable cfg.host_failure_cooldown_sec st host reason t)
        host (orc2.check_time 0)).1 = none := by
      rw [hchk2]
      exact Ork.cooldown_note_expired cfg.host_failure_cooldown_sec st host reason t
        later hw (le_of_lt hlater)
    have hh := Ork.host_loop_trace_head cfg.host_failure_cooldown_sec
      cfg.retry_delay_sec cfg.retry_attempts.toNat orc2
      (Ork.mark_host_unavailable cfg.host_failure_cooldown_sec st host reason t)
      [] 0 host [] hc2 hretry
    rw [Ork.verify_trace_eq, Ork.hostCandidates_singleton]
    exact hh
  · intro hn
    unfold Ork.cooldown_note
    rw [hn]

/-- Concrete configuration and oracles for the C4 witness: the default
configuration (cooldown 300 s), a probe whose cooldown check happens at
time 10 and one whose check happens at time 301, the host having been
marked at time 0. -/
def c4cfg : Ork.SMTPCheckerConfig := {}

def c4orc1 : Ork.SmtpOracle :=
  ⟨fun _ _ => .transport .timeout, fun _ _ => 0, fun _ => 10⟩

def c4orc2 : Ork.SmtpOracle :=
  ⟨fun _ _ => .transport .timeout, fun _ _ => 0, fun _ => 301⟩

/-- Witness for C4 at the default 300-second cooldown. -/
theorem claim_C4_host_cooldown_witness :
    Ork.cooldown_note
        (Ork.mark_host_unavailable c4cfg.host_failure_cooldown_sec {} "mx1" "timeout" 0)
        "mx1" 10
      = (some (Ork.skipNote "mx1" "timeout" ⌊(0 : ℚ) + c4cfg.host_failure_cooldown_sec - 10⌋),
         Ork.mark_host_unavailable c4cfg.host_failure_cooldown_sec {} "mx1" "timeout" 0)
    ∧ (Ork.verify c4cfg c4orc1
        (Ork.mark_host_unavailable c4cfg.host_failure_cooldown_sec {} "mx1" "timeout" 0)
        "a@b.com" ["mx1"]).2.2 = []
    ∧ (Ork.verify c4cfg c4orc1
        (Ork.mark_host_unavailable c4cfg.host_failure_cooldown_sec {} "mx1" "timeout" 0)
        "a@b.com" ["mx1"]).1
      = ⟨.unknown,
         Ork.skipNote "mx1" "timeout" ⌊(0 : ℚ) + c4cfg.host_failure_cooldown_sec - 10⌋
           ++ (if strMentions "timeout"
                   (Ork.skipNote "mx1" "timeout"
                     ⌊(0 : ℚ) + c4cfg.host_failure_cooldown_sec - 10⌋)
                 || strMentions "network error"
                   (Ork.skipNote "mx1" "timeout"
                     ⌊(0 : ℚ) + c4cfg.host_failure_cooldown_sec - 10⌋)
               then Ork.blockHint else ""), none⟩
    ∧ (Ork.cooldown_note
        (Ork.mark_host_unavailable c4cfg.host_failure_cooldown_sec {} "mx1" "timeout" 0)
        "mx1" 301).1 = none
    ∧ ((Ork.verify c4cfg c4orc2
        (Ork.mark_host_unavailable c4cfg.host_failure_cooldown_sec {} "mx1" "timeout" 0)
        "a@b.com" ["mx1"]).2.2).head? = some (.connect 0 "mx1" 1)
    ∧ (aget ({} : Ork.ProberState).host_unavailable_until "mx1" = none →
        Ork.cooldown_note {} "mx1" 10 = (none, {})) :=
  claim_C4_host_cooldown c4cfg c4orc1 c4orc2 {} "mx1" "timeout" "a@b.com" 0 10 301
    (by norm_num [c4cfg]) (by norm_num [c4cfg]) rfl (by norm_num [c4cfg]) rfl
    (by norm_num [c4cfg])

namespace Ork

/-- The cooldown entry written by a successful mark. -/
theorem aget_mark_until (w : ℚ) (st : ProberState) (host reason : String)
    (t : ℚ) (hw : 0 < w) :
    aget (mark_host_unavailable w st host reason t).host_unavailable_until host
      = some (t + w) := by
  unfold mark_host_unavailable
  rw [max_eq_right (le_of_lt hw), if_neg (not_le.mpr hw)]
  exact aget_aset _ _ _

/-- When every conversation with the host times out, the attempt loop
produces no classified result, accumulates one attempt-failure note per
attempt, and leaves the host marked with the time of the last attempt. -/
theorem attempt_loop_all_timeout (cooldownSec retryDelay : ℚ) (orc : SmtpOracle)
    (hostIdx : Nat) (host : String)
    (hout : ∀ a, orc.outcome hostIdx a = .transport .timeout) :
    ∀ r attempt st errors, 1 ≤ r →
      (attempt_loop cooldownSec retryDelay orc hostIdx host st errors attempt r).1 = none
      ∧ (attempt_loop cooldownSec retryDelay orc hostIdx host st errors attempt r).2.1
          = mark_host_unavailable cooldownSec st host "timeout"
              (orc.fail_time hostIdx (attempt + r - 1))
      ∧ (attempt_loop cooldownSec retryDelay orc hostIdx host st errors attempt r).2.2.1
          = errors ++ (List.range' attempt r).map (attemptNote host)
  | 1, attempt, st, errors, _ => by
    simp [attempt_loop, hout, verify_with_host_result, TransportFail.reason]
  | r + 2, attempt, st, errors, _ => by
    obtain ⟨ih1, ih2, ih3⟩ := attempt_loop_all_timeout cooldownSec retryDelay orc
      hostIdx host hout (r + 1) (attempt + 1)
      (mark_host_unavailable cooldownSec st host "timeout" (orc.fail_time hostIdx attempt))
      (errors ++ [attemptNote host attempt]) (by omega)
    simp only [attempt_loop, hout, verify_with_host_result, TransportFail.reason]
    refine ⟨ih1, ?_, ?_⟩
    · rw [ih2, mark_mark,
        show attempt + 1 + (r + 1) - 1 = attempt + (r + 2) - 1 from by omega]
    · rw [ih3,
        show List.range' attempt (r + 2) = attempt :: ((attempt + 1) :: List.range' (attempt + 1 + 1) r) from
          by rw [List.range'_succ, List.range'_succ]]
      simp [List.range'_succ]

end Ork

/-- **C7.** When the sole candidate host is not in cooldown and every
connection attempt to it times out, `verify` exhausts all retry attempts and
returns `unknown` with a detail composed from at most the 4 most recent
accumulated attempt-failure notes, appending the hint about likely
network-level blocking of outbound port-25 traffic exactly when one of the
accumulated notes mentions a timeout or a network error; and the host is
left in cooldown until the time of the last failed attempt plus the
configured cooldown window. -/
theorem claim_C7_all_hosts_exhausted (cfg : Ork.SMTPCheckerConfig)
    (orc : Ork.SmtpOracle) (st : Ork.ProberState) (email host : String)
    (hnone : aget st.host_unavailable_until host = none)
    (hout : ∀ a, orc.outcome 0 a = .transport .timeout)
    (hretry : 1 ≤ cfg.retry_attempts.toNat)
    (hw : 0 < cfg.host_failure_cooldown_sec) :
    (Ork.verify cfg orc st email [host]).1
      = ⟨.unknown,
         String.intercalate "; "
             (lastN 4 ((List.range' 1 cfg.retry_attempts.toNat).map (attemptNote host)))
           ++ (if ((List.range' 1 cfg.retry_attempts.toNat).map (attemptNote host)).any
                   (fun e => strMentions "timeout" e || strMentions "network error" e)
               then Ork.blockHint else ""), none⟩
    ∧ aget ((Ork.verify cfg orc st email [host]).2.1).host_unavailable_until host
        = some (orc.fail_time 0 cfg.retry_attempts.toNat
            + cfg.host_failure_cooldown_sec) := by
  have hcool : Ork.cooldown_note st host (orc.check_time 0) = (none, st) := by
    unfold Ork.cooldown_note
    rw [hnone]
  obtain ⟨h1, h2, h3⟩ := Ork.attempt_loop_all_timeout cfg.host_failure_cooldown_sec
    cfg.retry_delay_sec orc 0 host hout cfg.retry_attempts.toNat 1 st [] hretry
  rw [show 1 + cfg.retry_attempts.toNat - 1 = cfg.retry_attempts.toNat from by omega]
    at h2
  have hl1 : (Ork.host_loop cfg.host_failure_cooldown_sec cfg.retry_delay_sec
      cfg.retry_attempts.toNat orc st [] 0 [host]).1 = none := by
    simp only [Ork.host_loop, hcool, h1]
  have hl2 : (Ork.host_loop cfg.host_failure_cooldown_sec cfg.retry_delay_sec
      cfg.retry_attempts.toNat orc st [] 0 [host]).2.1
      = Ork.mark_host_unavailable cfg.host_failure_cooldown_sec st host "timeout"
          (orc.fail_time 0 cfg.retry_attempts.toNat) := by
    simp only [Ork.host_loop, hcool, h1]
    exact h2
  have hl3 : (Ork.host_loop cfg.host_failure_cooldown_sec cfg.retry_delay_sec
      cfg.retry_attempts.toNat orc st [] 0 [host]).2.2.1
      = (List.range' 1 cfg.retry_attempts.toNat).map (attemptNote host) := by
    simp only [Ork.host_loop, hcool, h1]
    simpa using h3
  have hnotes : ((List.range' 1 cfg.retry_attempts.toNat).map (attemptNote host)) ≠ [] := by
    obtain ⟨k, hk⟩ : ∃ k, cfg.retry_attempts.toNat = k + 1 :=
      ⟨cfg.retry_attempts.toNat - 1, by omega⟩
    rw [hk, List.range'_succ]
    simp
  constructor
  · simp only [Ork.verify, Ork.hostCandidates_singleton, hl1, hl3]
    rw [if_neg (by simpa [List.isEmpty_iff] using hnotes)]
  · simp only [Ork.verify, Ork.hostCandidates_singleton, hl1]
    split
    · rw [hl2]
      exact Ork.aget_mark_until _ _ _ _ _ hw
    · rw [hl2]
      exact Ork.aget_mark_until _ _ _ _ _ hw

/-- Concrete oracle for the C7 witness: every conversation times out; the
transport failures are recorded at time 5. -/
def c7orc : Ork.SmtpOracle :=
  ⟨fun _ _ => .transport .timeout, fun _ _ => 5, fun _ => 0⟩

/-- Witness for C7 at the default configuration (2 retry attempts). -/
theorem claim_C7_all_hosts_exhausted_witness :
    (Ork.verify ({} : Ork.SMTPCheckerConfig) c7orc {} "a@b.com" ["mx1"]).1
      = ⟨.unknown,
         String.intercalate "; "
             (lastN 4 ((List.range' 1
                 ({} : Ork.SMTPCheckerConfig).retry_attempts.toNat).map (attemptNote "mx1")))
           ++ (if ((List.range' 1
                   ({} : Ork.SMTPCheckerConfig).retry_attempts.toNat).map (attemptNote "mx1")).any
                   (fun e => strMentions "timeout" e || strMentions "network error" e)
               then Ork.blockHint else ""), none⟩
    ∧ aget ((Ork.verify ({} : Ork.SMTPCheckerConfig) c7orc {} "a@b.com"
          ["mx1"]).2.1).host_unavailable_until "mx1"
        = some (c7orc.fail_time 0 ({} : Ork.SMTPCheckerConfig).retry_attempts.toNat
            + ({} : Ork.SMTPCheckerConfig).host_failure_cooldown_sec) :=
  claim_C7_all_hosts_exhausted {} c7orc {} "a@b.com" "mx1" rfl (fun _ => rfl)
    (by decide) (by norm_num)

/-- A classified `_verify_with_host` result is either an RCPT
classification or has status `unknown`. -/
theorem verify_with_host_result_inl :
    ∀ (out : AttemptOutcome) (res : SMTPCheckResult),
      verify_with_host_result out = .inl res →
      (∃ c m, res = interpret_rcpt_response c m) ∨ res.status = .unknown
  | .replies mc mm rc rm, res => by
    intro h
    simp only [verify_with_host_result] at h
    split at h
    · right
      obtain rfl := Sum.inl.inj h
      rfl
    · left
      exact ⟨rc, rm, (Sum.inl.inj h).symm⟩
  | .smtpError m, res => by
    intro h
    simp only [verify_with_host_result] at h
    right
    obtain rfl := Sum.inl.inj h
    rfl
  | .transport t, res => by
    intro h
    simp only [verify_with_host_result] at h
    exact absurd h (by simp)

namespace Ork

theorem attempt_loop_some (cooldownSec retryDelay : ℚ) (orc : SmtpOracle)
    (hostIdx : Nat) (host : String) :
    ∀ r attempt st errors res,
      (attempt_loop cooldownSec retryDelay orc hostIdx host st errors attempt r).1
        = some res →
      (∃ c m, res = interpret_rcpt_response c m) ∨ res.status = .unknown
  | 0, attempt, st, errors, res => by simp [attempt_loop]
  | 1, attempt, st, errors, res => by
    intro h
    cases hv : verify_with_host_result (orc.outcome hostIdx attempt) with
    | inl r0 =>
      simp only [attempt_loop, hv] at h
      obtain rfl : r0 = res := by simpa using h
      exact verify_with_host_result_inl _ _ hv
    | inr reason => simp [attempt_loop, hv] at h
  | r + 2, attempt, st, errors, res => by
    intro h
    cases hv : verify_with_host_result (orc.outcome hostIdx attempt) with
    | inl r0 =>
      simp only [attempt_loop, hv] at h
      obtain rfl : r0 = res := by simpa using h
      exact verify_with_host_result_inl _ _ hv
    | inr reason =>
      simp only [attempt_loop, hv] at h
      exact attempt_loop_some cooldownSec retryDelay orc hostIdx host (r + 1)
        (attempt + 1) _ _ res h

theorem host_loop_some (cooldownSec retryDelay : ℚ) (retryNat : Nat)
    (orc : SmtpOracle) :
    ∀ hosts st errors hostIdx res,
      (host_loop cooldownSec retryDelay retryNat orc st errors hostIdx hosts).1
        = some res →
      (∃ c m, res = interpret_rcpt_response c m) ∨ res.status = .unknown
  | [], st, errors, hostIdx, res => by simp [host_loop]
  | host :: rest, st, errors, hostIdx, res => by
    intro h
    cases hcn : cooldown_note st host (orc.check_time hostIdx) with
    | mk o st2 =>
      cases o with
      | some note =>
        simp only [host_loop, hcn] at h
        exact host_loop_some cooldownSec retryDelay retryNat orc rest _ _ _ res h
      | none =>
        simp only [host_loop, hcn] at h
        cases ha : (attempt_loop cooldownSec retryDelay orc hostIdx host st2 errors 1
            retryNat).1 with
        | some r0 =>
          rw [ha] at h
          simp only [] at h
          obtain rfl : r0 = res := by simpa using h
          exact attempt_loop_some cooldownSec retryDelay orc hostIdx host retryNat
            1 st2 errors _ ha
        | none =>
          rw [ha] at h
          simp only [] at h
          exact host_loop_some cooldownSec retryDelay retryNat orc rest _ _ _ res h

end Ork

/-- **C9.** Every `verify` result whose status is not `unknown` is an RCPT
classification and therefore carries a code equal to the RCPT reply code
that produced it; conversely a result without a code has status `unknown`. -/
theorem claim_C9_rcpt_code_provenance (cfg : Ork.SMTPCheckerConfig)
    (orc : Ork.SmtpOracle) (st : Ork.ProberState) (email : String)
    (mx_hosts : List String) :
    ((Ork.verify cfg orc st email mx_hosts).1.status ≠ .unknown →
      ∃ c m, (Ork.verify cfg orc st email mx_hosts).1 = interpret_rcpt_response c m
        ∧ (Ork.verify cfg orc st email mx_hosts).1.code = some c)
    ∧ ((Ork.verify cfg orc st email mx_hosts).1.code = none →
      (Ork.verify cfg orc st email mx_hosts).1.status = .unknown) := by
  have key : (∃ c m, (Ork.verify cfg orc st email mx_hosts).1
        = interpret_rcpt_response c m)
      ∨ (Ork.verify cfg orc st email mx_hosts).1.status = .unknown := by
    cases mx_hosts with
    | nil => right; rfl
    | cons h t =>
      cases hres : (Ork.host_loop cfg.host_failure_cooldown_sec cfg.retry_delay_sec
          cfg.retry_attempts.toNat orc st [] 0
          (hostCandidates cfg.max_mx_tries (h :: t))).1 with
      | some r =>
        have hchar := Ork.host_loop_some cfg.host_failure_cooldown_sec
          cfg.retry_delay_sec cfg.retry_attempts.toNat orc
          (hostCandidates cfg.max_mx_tries (h :: t)) st [] 0 r hres
        have hv : (Ork.verify cfg orc st email (h :: t)).1 = r := by
          simp [Ork.verify, hres]
        rw [hv]
        exact hchar
      | none =>
        right
        simp only [Ork.verify, hres]
        split <;> rfl
  constructor
  · intro hne
    rcases key with ⟨c, m, hcm⟩ | hunk
    · exact ⟨c, m, hcm, by rw [hcm]; exact interpret_rcpt_response_code c m⟩
    · exact absurd hunk hne
  · intro hcode
    rcases key with ⟨c, m, hcm⟩ | hunk
    · rw [hcm, interpret_rcpt_response_code c m] at hcode
      exact absurd hcode (by simp)
    · exact hunk

/-- A 250 RCPT reply is classified deliverable. -/
theorem interpret_rcpt_response_status_250 (m : String) :
    (interpret_rcpt_response 250 m).status = .deliverable := by
  unfold interpret_rcpt_response
  norm_num

/-- Concrete oracle for the C9 witness: the server accepts MAIL FROM and the
recipient with 250 replies. -/
def c9orc : Ork.SmtpOracle :=
  ⟨fun _ _ => .replies 250 "OK" 250 "Accepted", fun _ _ => 0, fun _ => 0⟩

/-- Witness for C9: a deliverable result carries the 250 RCPT code. -/
theorem claim_C9_rcpt_code_provenance_witness :
    ∃ c m, (Ork.verify {} c9orc {} "a@b.com" ["mx1"]).1 = interpret_rcpt_response c m
      ∧ (Ork.verify {} c9orc {} "a@b.com" ["mx1"]).1.code = some c := by
  have hv : (Ork.verify {} c9orc {} "a@b.com" ["mx1"]).1
      = interpret_rcpt_response 250 "Accepted" := rfl
  exact (claim_C9_rcpt_code_provenance {} c9orc {} "a@b.com" ["mx1"]).1
    (by rw [hv, interpret_rcpt_response_status_250]; simp)

/-- **C10.** For every non-empty `mx_hosts`, the candidate slice
`mx_hosts[: max(1, max_mx_tries)]` is non-empty and starts with the first
host, even for a zero or negative configured `max_mx_tries`; in that case
the slice is the first host alone and `verify` behaves exactly as with
`max_mx_tries = 1`. -/
theorem claim_C10_candidate_floor (cfg : Ork.SMTPCheckerConfig)
    (orc : Ork.SmtpOracle) (st : Ork.ProberState) (email : String)
    (mx_hosts : List String) (hne : mx_hosts ≠ []) :
    hostCandidates cfg.max_mx_tries mx_hosts ≠ []
    ∧ (hostCandidates cfg.max_mx_tries mx_hosts).head? = mx_hosts.head?
    ∧ hostCandidates cfg.max_mx_tries mx_hosts
        = mx_hosts.take (max 1 cfg.max_mx_tries).toNat
    ∧ (cfg.max_mx_tries ≤ 0 →
        hostCandidates cfg.max_mx_tries mx_hosts = mx_hosts.take 1
        ∧ Ork.verify cfg orc st email mx_hosts
            = Ork.verify {cfg with max_mx_tries := 1} orc st email mx_hosts) := by
  obtain ⟨h, t, rfl⟩ : ∃ h t, mx_hosts = h :: t := by
    cases mx_hosts with
    | nil => exact absurd rfl hne
    | cons h t => exact ⟨h, t, rfl⟩
  obtain ⟨k, hk⟩ : ∃ k, (max 1 cfg.max_mx_tries).toNat = k + 1 :=
    ⟨(max 1 cfg.max_mx_tries).toNat - 1,
     by have := Ork.one_le_clamped_toNat cfg.max_mx_tries; omega⟩
  refine ⟨?_, ?_, rfl, ?_⟩
  · unfold hostCandidates
    rw [hk]
    simp
  · unfold hostCandidates
    rw [hk]
    simp
  · intro hle
    have hclamp : max 1 cfg.max_mx_tries = 1 :=
      max_eq_left (show cfg.max_mx_tries ≤ 1 by omega)
    have hcand : hostCandidates ({cfg with max_mx_tries := 1} :
          Ork.SMTPCheckerConfig).max_mx_tries (h :: t)
        = hostCandidates cfg.max_mx_tries (h :: t) := by
      unfold hostCandidates
      rw [hclamp]
      rfl
    constructor
    · unfold hostCandidates
      rw [hclamp]
      rfl
    · simp only [Ork.verify]
      rw [hcand]

/-- Concrete configuration (zero `max_mx_tries`) and oracle for the C10
witness. -/
def c10cfg : Ork.SMTPCheckerConfig := { max_mx_tries := 0 }

def c10orc : Ork.SmtpOracle :=
  ⟨fun _ _ => .smtpError "boom", fun _ _ => 0, fun _ => 0⟩

/-- Witness for C10 with `max_mx_tries = 0` and two MX hosts. -/
theorem claim_C10_candidate_floor_witness :
    hostCandidates c10cfg.max_mx_tries ["mx1", "mx2"] ≠ []
    ∧ (hostCandidates c10cfg.max_mx_tries ["mx1", "mx2"]).head?
        = (["mx1", "mx2"] : List String).head?
    ∧ hostCandidates c10cfg.max_mx_tries ["mx1", "mx2"]
        = (["mx1", "mx2"] : List String).take (max 1 c10cfg.max_mx_tries).toNat
    ∧ (c10cfg.max_mx_tries ≤ 0 →
        hostCandidates c10cfg.max_mx_tries ["mx1", "mx2"]
            = (["mx1", "mx2"] : List String).take 1
        ∧ Ork.verify c10cfg c10orc {} "a@b.com" ["mx1", "mx2"]
            = Ork.verify {c10cfg with max_mx_tries := 1} c10orc {} "a@b.com"
                ["mx1", "mx2"]) :=
  claim_C10_candidate_floor c10cfg c10orc {} "a@b.com" ["mx1", "mx2"] (by simp)

/-! ### Address validation (`pot/email_check/validator.py`)

String scanning is embedded over character lists so that every operation is
structurally recursive. -/

/-- Python `str.split(sep)` on a character separator: splitting the empty
string yields one empty part, and `n` separators yield `n + 1` parts. -/
def splitOnChar (sep : Char) : List Char → List (List Char)
  | [] => [[]]
  | c :: rest =>
    let r := splitOnChar sep rest
    if c == sep then [] :: r
    else (c :: r.headD []) :: r.tail

/-- The special (non-alphanumeric) characters of the local-part class in
`_EMAIL_PATTERN`. -/
def localSpecialChars : List Char :=
  ['.', '!', '#', '$', '%', '&', Char.ofNat 39, '*', '+', '/', '=', '?', '^',
   '_', Char.ofNat 96, Char.ofNat 123, '|', Char.ofNat 125, '~', '-']

def isLocalChar (c : Char) : Bool :=
  c.isAlpha || c.isDigit || localSpecialChars.contains c

def isLabelChar (c : Char) : Bool := c.isAlpha || c.isDigit || c == '-'

/-- `is_valid_email_format`: full match of
`^[local]+@[A-Za-z0-9-]+(?:\.[A-Za-z0-9-]+)+$` via `re.match`.  Python's
`$` also matches just before one final newline, hence the initial strip of a
single trailing newline character. -/
def is_valid_email_format (email : String) : Bool :=
  let cs :=
    if email.data.getLast? == some (Char.ofNat 10) then email.data.dropLast
    else email.data
  match splitOnChar (Char.ofNat 64) cs with
  | [lp, dom] =>
    let labels := splitOnChar (Char.ofNat 46) dom
    !lp.isEmpty && lp.all isLocalChar
      && decide (2 ≤ labels.length)
      && labels.all (fun lab => !lab.isEmpty && lab.all isLabelChar)
  | _ => false

/-- Python `str.strip()`: drop whitespace from both ends. -/
def pyStrip (cs : List Char) : List Char :=
  ((cs.dropWhile (·.isWhitespace)).reverse.dropWhile (·.isWhitespace)).reverse

/-- `extract_domain`: empty string when no `@` occurs, otherwise the part
after the last `@`, stripped and lower-cased (ASCII case mapping). -/
def extract_domain (email : String) : String :=
  if email.data.contains (Char.ofNat 64) then
    String.mk ((pyStrip ((splitOnChar (Char.ofNat 64) email.data).getLastD [])).map
      Char.toLower)
  else ""

/-! ### `pot`'s SMTP prober and orchestrator -/

namespace Pot

/-- `pot`'s `SMTPCheckerConfig` dataclass (no host cooldown). -/
structure SMTPCheckerConfig where
  timeout : ℚ := 8
  max_mx_tries : Int := 2
  mail_from : String := "verify@yourdomain.test"
  helo_host : String := "localhost"
  retry_attempts : Int := 2
  retry_delay_sec : ℚ := 7/20
  try_starttls : Bool := true
deriving Repr

/-- The attempt loop of `pot`'s `verify`: like `ork`'s, but stateless — a
transport failure only accumulates the attempt-failure note. -/
def attempt_loop (retryDelay : ℚ) (orc : Nat → Nat → AttemptOutcome)
    (hostIdx : Nat) (host : String) (errors : List String) (attempt : Nat) :
    Nat → Option SMTPCheckResult × List String × List SmtpEvent
  | 0 => (none, errors, [])
  | 1 =>
    match verify_with_host_result (orc hostIdx attempt) with
    | .inl res => (some res, errors, [.connect hostIdx host attempt])
    | .inr _ =>
      (none, errors ++ [attemptNote host attempt], [.connect hostIdx host attempt])
  | r + 2 =>
    match verify_with_host_result (orc hostIdx attempt) with
    | .inl res => (some res, errors, [.connect hostIdx host attempt])
    | .inr _ =>
      let next := attempt_loop retryDelay orc hostIdx host
        (errors ++ [attemptNote host attempt]) (attempt + 1) (r + 1)
      (next.1, next.2.1,
       .connect hostIdx host attempt :: .sleepRetry retryDelay :: next.2.2)

/-- The candidate-host loop of `pot`'s `verify` (no cooldown check). -/
def host_loop (retryDelay : ℚ) (retryNat : Nat) (orc : Nat → Nat → AttemptOutcome)
    (errors : List String) (hostIdx : Nat) :
    List String → Option SMTPCheckResult × List String × List SmtpEvent
  | [] => (none, errors, [])
  | host :: rest =>
    let a := attempt_loop retryDelay orc hostIdx host errors 1 retryNat
    match a.1 with
    | some res => (some res, a.2.1, a.2.2)
    | none =>
      let b := host_loop retryDelay retryNat orc a.2.1 (hostIdx + 1) rest
      (b.1, b.2.1, a.2.2 ++ b.2.2)

/-- `pot`'s `SMTPHandshakeChecker.verify`: its fallback detail is
`"; ".join(errors[-4:]) or "не удалось проверить"`. -/
def verify (cfg : SMTPCheckerConfig) (orc : Nat → Nat → AttemptOutcome)
    (target_email : String) (mx_hosts : List String) :
    SMTPCheckResult × List SmtpEvent :=
  match mx_hosts with
  | [] => (⟨.unknown, "нет MX-хостов для SMTP проверки", none⟩, [])
  | _ :: _ =>
    let res := host_loop cfg.retry_delay_sec cfg.retry_attempts.toNat orc [] 0
      (hostCandidates cfg.max_mx_tries mx_hosts)
    match res.1 with
    | some r => (r, res.2.2)
    | none =>
      let joined := String.intercalate "; " (lastN 4 res.2.1)
      (⟨.unknown, if joined = "" then "не удалось проверить" else joined, none⟩,
       res.2.2)

/-- `pot`'s `DomainMXChecker._lookup_uncached`: a single query, classified
exactly like one attempt of `ork`'s resolver. -/
def lookup_uncached (out : DnsOutcome) (domain : String) : MXLookupResult :=
  match out with
  | .records rs => recordsResult domain rs
  | .nxdomain => ⟨domain, .domain_missing, [], "домен отсутствует"⟩
  | .noAnswer => ⟨domain, .mx_missing, [], "MX-записи отсутствуют или некорректны"⟩
  | .noNameservers => ⟨domain, .mx_missing, [], "DNS nameserver недоступен"⟩
  | .timeout => ⟨domain, .mx_missing, [], "таймаут DNS при проверке MX"⟩
  | .otherError msg => ⟨domain, .mx_missing, [], "ошибка DNS: " ++ msg⟩

/-- `pot`'s `DomainMXChecker.lookup`: every fresh result is cached.  The
returned flag records whether a DNS query was performed. -/
def lookup (dns : String → DnsOutcome) (cache : MXCache) (domain : String) :
    MXLookupResult × MXCache × Bool :=
  match cacheGet cache domain with
  | some r => (r, cache, false)
  | none =>
    let res := lookup_uncached (dns domain) domain
    (res, cacheSet cache domain res, true)

/-- External nondeterminism of a `check_emails` run: the DNS outcome per
domain (one uncached query per domain suffices, as every result is cached)
and the SMTP conversation outcomes per (address index, host index, attempt). -/
structure CheckEnv where
  dns : String → DnsOutcome
  smtp : Nat → Nat → Nat → AttemptOutcome

/-- Network I/O performed while processing one address. -/
inductive NetEvent where
  | dnsQuery (domain : String)
  | smtpConnect (host : String) (attempt : Nat)
deriving DecidableEq, Repr

/-- The network events among the prober's events (retry sleeps are not I/O). -/
def smtpNetEvents : List SmtpEvent → List NetEvent
  | [] => []
  | .connect _ host attempt :: rest => .smtpConnect host attempt :: smtpNetEvents rest
  | .sleepRetry _ :: rest => smtpNetEvents rest

/-- One iteration of the `check_emails` loop: classify the address syntax,
and either emit the invalid-format result without any network I/O, or
resolve MX (caching) and, only for a `valid` resolution, probe SMTP. -/
def check_one (env : CheckEnv) (cfg : SMTPCheckerConfig) (cache : MXCache)
    (idx : Nat) (email : String) : EmailCheckResult × MXCache × List NetEvent :=
  if is_valid_email_format email then
    let domain := extract_domain email
    let lr := lookup env.dns cache domain
    let dnsEvents : List NetEvent := if lr.2.2 then [.dnsQuery domain] else []
    if lr.1.status = DomainStatus.valid then
      let vr := verify cfg (env.smtp idx) email lr.1.mx_hosts
      (⟨email, domain, lr.1.status, lr.1.mx_hosts, vr.1.status, vr.1.detail⟩,
       lr.2.1, dnsEvents ++ smtpNetEvents vr.2)
    else
      (⟨email, domain, lr.1.status, lr.1.mx_hosts, .unknown, "SMTP skipped"⟩,
       lr.2.1, dnsEvents)
  else
    (⟨email, extract_domain email, .domain_missing, [], .unknown,
      "некорректный формат email"⟩, cache, [])

def check_emails_go (env : CheckEnv) (cfg : SMTPCheckerConfig) (cache : MXCache)
    (idx : Nat) : List String → List (EmailCheckResult × List NetEvent)
  | [] => []
  | email :: rest =>
    let r := check_one env cfg cache idx email
    (r.1, r.2.2) :: check_emails_go env cfg r.2.1 (idx + 1) rest

/-- `pot.cli.check_emails`: one `EmailCheckResult` per input address, paired
with the network events performed for that address. -/
def check_emails (env : CheckEnv) (cfg : SMTPCheckerConfig)
    (emails : List String) : List (EmailCheckResult × List NetEvent) :=
  check_emails_go env cfg [] 0 emails

/-- Each loop iteration echoes its input address in the result. -/
theorem check_one_email (env : CheckEnv) (cfg : SMTPCheckerConfig)
    (cache : MXCache) (idx : Nat) (email : String) :
    (check_one env cfg cache idx email).1.email = email := by
  unfold check_one
  split
  · dsimp only
    split <;> rfl
  · rfl

end Pot

/-- **C2.** `check_emails` returns exactly one result per input address, in
input order, each carrying its address — whatever the DNS and SMTP oracles
do, and however the addresses are classified. -/
theorem claim_C2_one_result_per_input (env : Pot.CheckEnv)
    (cfg : Pot.SMTPCheckerConfig) (emails : List String) :
    (Pot.check_emails env cfg emails).map (fun p => p.1.email) = emails := by
  have hgen : ∀ (es : List String) (cache : MXCache) (idx : Nat),
      (Pot.check_emails_go env cfg cache idx es).map (fun p => p.1.email) = es := by
    intro es
    induction es with
    | nil => intro cache idx; rfl
    | cons e rest ih =>
      intro cache idx
      simp only [Pot.check_emails_go, List.map_cons, ih]
      rw [Pot.check_one_email]
  exact hgen emails [] 0

/-- Concrete environment for the C8 theorems. -/
def c8env : Pot.CheckEnv := ⟨fun _ => .nxdomain, fun _ _ _ => .smtpError "x"⟩

/-- **C8 (counterexample).** The claim's detail string is wrong: for a
syntactically invalid address the emitted detail is the Russian message
"некорректный формат email", not the literal string
"invalid address format". -/
theorem claim_C8_invalid_format_counterexample :
    ((Pot.check_emails c8env {} ["bad-email"]).map (fun p => p.1.smtp_detail)
        = ["некорректный формат email"])
    ∧ ("некорректный формат email" : String) ≠ "invalid address format" := by
  constructor
  · rfl
  · decide

/-- **C8 (amended).** For every input address that fails syntax
classification, `check_emails` emits, at that address's position, a result
with `domain_status = domain_missing`, an empty MX host list,
`smtp_status = unknown` and detail "некорректный формат email" (the
implementation's message for an invalid address format), and performs no
DNS or SMTP network I/O for that address. -/
theorem claim_C8_invalid_format_amended (env : Pot.CheckEnv)
    (cfg : Pot.SMTPCheckerConfig) (emails : List String) (i : Nat)
    (email : String) (hidx : emails[i]? = some email)
    (hinv : is_valid_email_format email = false) :
    (Pot.check_emails env cfg emails)[i]?
      = some (⟨email, extract_domain email, .domain_missing, [], .unknown,
          "некорректный формат email"⟩, []) := by
  have hgen : ∀ (es : List String) (i : Nat) (cache : MXCache) (idx : Nat),
      es[i]? = some email →
      (Pot.check_emails_go env cfg cache idx es)[i]?
        = some (⟨email, extract_domain email, .domain_missing, [], .unknown,
            "некорректный формат email"⟩, []) := by
    intro es
    induction es with
    | nil => intro i cache idx h; simp at h
    | cons e rest ih =>
      intro i cache idx h
      cases i with
      | zero =>
        simp only [List.getElem?_cons_zero, Option.some.injEq] at h
        subst h
        simp only [Pot.check_emails_go, List.getElem?_cons_zero, Option.some.injEq]
        unfold Pot.check_one
        rw [if_neg (by rw [hinv]; simp)]
      | succ j =>
        simp only [List.getElem?_cons_succ] at h
        simp only [Pot.check_emails_go, List.getElem?_cons_succ]
        exact ih j _ _ h
  exact hgen emails i [] 0 hidx

/-- Witness for the amended C8 at the invalid address "bad-email". -/
theorem claim_C8_invalid_format_amended_witness :
    (Pot.check_emails c8env {} ["bad-email"])[0]?
      = some (⟨"bad-email", extract_domain "bad-email", .domain_missing, [],
          .unknown, "некорректный формат email"⟩, []) :=
  claim_C8_invalid_format_amended c8env {} ["bad-email"] 0 "bad-email" rfl
    (by decide)
